import Mathlib

/-!
Verification of the scoring / classification / persistence core of the
Victor Consulting "3-minute diagnosis" Streamlit app (`streamlit_app.py`).

The Python source is shallowly embedded: pure helpers become Lean
functions on `String`, `ℕ`, `ℚ` and `List`; the session-state save guard
and the dual-sink persistence policy become explicit state-passing
functions with ghost counters for the performed effects.  Fractional
scores are modelled with exact rationals: every score produced by the app
is an integer multiple of 1/10, and on that grid the Python float
comparisons against the literals 4.0, 2.6, 3.5 and 2.0 agree with the
exact rational comparisons.
-/

/-! ## Scorer (streamlit_app.py lines 338-344) -/

/-- The inversion table `{5: 1, 3: 3, 1: 5}` used by `to_score_yn3` for
questions where agreement signals higher risk.  The Python dict lookup
raises on any other key; the `0` default branch is unreachable because
the base score is always 1, 3 or 5. -/
def invMap3 (v : ℕ) : ℕ :=
  if v = 5 then 1 else if v = 3 then 3 else if v = 1 then 5 else 0

/-- Source `to_score_yn3(ans, invert)`: `base = {"Yes": 5, "部分的に": 3, "No": 1}`,
`val = base.get(ans, 3)`, inverted through `{5:1, 3:3, 1:5}` when
`invert` is set. -/
def to_score_yn3 (ans : String) (invert : Bool) : ℕ :=
  let val : ℕ :=
    if ans = "Yes" then 5 else if ans = "部分的に" then 3
    else if ans = "No" then 1 else 3
  if invert then invMap3 val else val

/-- Source `to_score_5scale(ans) = int(ans[0])`: the numeric value of the leading
character of the displayed label.  Python raises on an empty or
non-digit-leading string; the form only ever supplies the five fixed
labels, whose leading characters are digits. -/
def to_score_5scale (ans : String) : ℕ :=
  match ans.data with
  | [] => 0
  | c :: _ => c.toNat - '0'.toNat

/-- The 3-point answer labels offered by the form (`YN3`). -/
def YN3 : List String := ["Yes", "部分的に", "No"]

/-- The 5-point answer labels offered by the form (`FIVE`). -/
def FIVE : List String := ["5（非常にある）", "4", "3", "2", "1（まったくない）"]

/-! ## Category profile and overall average (lines 549-565) -/

/-- The ten raw form answers, in question order Q1..Q10. -/
structure Answers where
  q1 : String
  q2 : String
  q3 : String
  q4 : String
  q5 : String
  q6 : String
  q7 : String
  q8 : String
  q9 : String
  q10 : String

/-- The fixed category enumeration order of the result dataframe. -/
def CATEGORIES : List String :=
  ["在庫・運搬", "人材・技能承継", "原価意識・改善文化", "生産計画・変動対応", "DX・情報共有"]

/-- The five category scores, each the mean of its two question scores,
in the fixed category order: `inv_scores`, `skills_scores` (Q3 inverted),
`cost_scores` (Q6 on the 5-point scale), `plan_scores`, `dx_scores`. -/
def category_scores (a : Answers) : List ℚ :=
  [ ((to_score_yn3 a.q1 false + to_score_yn3 a.q2 false : ℕ) : ℚ) / 2,
    ((to_score_yn3 a.q3 true + to_score_yn3 a.q4 false : ℕ) : ℚ) / 2,
    ((to_score_yn3 a.q5 false + to_score_5scale a.q6 : ℕ) : ℚ) / 2,
    ((to_score_yn3 a.q7 false + to_score_yn3 a.q8 false : ℕ) : ℚ) / 2,
    ((to_score_yn3 a.q9 false + to_score_yn3 a.q10 false : ℕ) : ℚ) / 2 ]

/-- The ten individual question scores in question order, exactly the
calls made on lines 549-553. -/
def question_scores (a : Answers) : List ℕ :=
  [ to_score_yn3 a.q1 false, to_score_yn3 a.q2 false,
    to_score_yn3 a.q3 true, to_score_yn3 a.q4 false,
    to_score_yn3 a.q5 false, to_score_5scale a.q6,
    to_score_yn3 a.q7 false, to_score_yn3 a.q8 false,
    to_score_yn3 a.q9 false, to_score_yn3 a.q10 false ]

/-- Overall average `overall_avg = df["平均スコア"].mean()`: the mean of the five category
scores. -/
def overall_avg (a : Answers) : ℚ :=
  (category_scores a).sum / 5

/-! ## Classifier (lines 567-585) -/

/-- The traffic-light signal (label, CSS badge class) derived from the
overall average, lines 567-572. -/
def signal (x : ℚ) : String × String :=
  if x ≥ 4 then ("青信号", "badge-blue")
  else if x ≥ 2.6 then ("黄信号", "badge-yellow")
  else ("赤信号", "badge-red")

/-- The fixed 1:1 category-to-archetype lookup of lines 579-585.  The
Python dict raises on any other key; the form only produces the five
fixed category names, so the `""` default is unreachable. -/
def TYPE_MAP (cat : String) : String :=
  if cat = "在庫・運搬" then "在庫滞留型"
  else if cat = "人材・技能承継" then "熟練依存型"
  else if cat = "原価意識・改善文化" then "原価ブラックボックス型"
  else if cat = "生産計画・変動対応" then "変動脆弱型"
  else if cat = "DX・情報共有" then "データ断絶型"
  else ""

/-- Embeds `df.sort_values("平均スコア").iloc[0]` for the five-row dataframe: the
sort is stable on this input size, so the first row of the sorted frame
is the first row attaining the minimal score.  Modelled as a left fold
keeping the earlier row on ties (strict `<` to replace). -/
def worst_first (h : String × ℚ) (t : List (String × ℚ)) : String × ℚ :=
  t.foldl (fun best p => if p.2 < best.2 then p else best) h

/-- Source `main_type` (lines 574-585): balanced when every category score is
at least 4.0, otherwise the archetype of the first lowest category. -/
def main_type (scores : List ℚ) : String :=
  if scores.all (fun s => decide (s ≥ 4)) then "バランス良好型"
  else
    match CATEGORIES.zip scores with
    | [] => ""
    | h :: t => TYPE_MAP (worst_first h t).1

/-! ## Risk level for the persisted row (lines 674-680) -/

/-- Source `to_risk_level(total)`: the three-band risk label stored in the
`risk_level` column, with thresholds 2.0 and 3.5. -/
def to_risk_level (total : ℚ) : String :=
  if total < 2 then "高リスク"
  else if total < 3.5 then "中リスク"
  else "低リスク"

/-! ## Persistence guard (lines 274-283, 587-592, 707-710)

The Streamlit session state relevant to saving is the `saved_once` flag;
the number of `auto_save_row` calls actually performed is tracked as a
ghost counter so that "zero additional appends" is expressible. -/

/-- The save-relevant slice of `st.session_state`, plus a ghost counter
of performed `auto_save_row` calls. -/
structure SessionSaveState where
  saved_once : Bool
  append_count : ℕ

/-- The `st.session_state.update({... "saved_once": False})` performed on
every new submission (line 591). -/
def submit_reset (s : SessionSaveState) : SessionSaveState :=
  { s with saved_once := false }

/-- The guarded save step of lines 707-709: `auto_save_row(row)` runs and
the flag is set only when `ai_tried` is set and `saved_once` is not. -/
def save_step (ai_tried : Bool) (s : SessionSaveState) : SessionSaveState :=
  if ai_tried && !s.saved_once then
    { saved_once := true, append_count := s.append_count + 1 }
  else s

/-! ## Dual-sink persistence (lines 229-259)

`auto_save_row` is effectful; its observable behaviour is the number of
primary (Sheets) attempts, successful fallback (CSV) appends, WARN
events and ERROR events, as a function of whether the primary path is
configured and which operations fail. -/

/-- The observable effects of one `auto_save_row` call. -/
structure SaveOutcome where
  primary_attempts : ℕ
  fallback_appends : ℕ
  warn_events : ℕ
  error_events : ℕ

/-- The inner `_append_csv` helper (lines 246-250): one CSV append when
the filesystem write succeeds, otherwise an ERROR event and no append. -/
def append_csv_step (fallback_ok : Bool) : SaveOutcome :=
  if fallback_ok then
    { primary_attempts := 0, fallback_appends := 1,
      warn_events := 0, error_events := 0 }
  else
    { primary_attempts := 0, fallback_appends := 0,
      warn_events := 0, error_events := 1 }

/-- Source `auto_save_row` (lines 252-259): with credentials and a sheet id
configured, one attempt on the primary path; on its failure `_append_csv`
runs once and one WARN event is recorded; with no configuration the
fallback is used directly. -/
def auto_save_row (configured primary_ok fallback_ok : Bool) : SaveOutcome :=
  if configured then
    if primary_ok then
      { primary_attempts := 1, fallback_appends := 0,
        warn_events := 0, error_events := 0 }
    else
      let c := append_csv_step fallback_ok
      { primary_attempts := 1, fallback_appends := c.fallback_appends,
        warn_events := c.warn_events + 1, error_events := c.error_events }
  else append_csv_step fallback_ok

/-! ## Column-order contract (lines 51-68, 205-227, 688-705) -/

/-- Source `HEADER_ORDER`: the fixed, explicit 16-column order of the
`responses` sheet. -/
def HEADER_ORDER : List String :=
  [ "timestamp", "company", "email", "category_scores", "total_score",
    "type_label", "ai_comment", "utm_source", "utm_campaign", "pdf_url",
    "app_version", "status", "ai_comment_len", "risk_level",
    "entry_check", "report_date" ]

/-- Python `row_dict.get(k, "")` on an insertion-ordered record: the value of
the first entry with key `k`, or `""`. -/
def lookup_default (k : String) : List (String × String) → String
  | [] => ""
  | p :: rest => if p.1 = k then p.2 else lookup_default k rest

/-- The Sheets sink's row layout (line 219):
`record = [row_dict.get(k, "") for k in HEADER_ORDER]` — values are
re-keyed by the fixed column order. -/
def sheets_record (row : List (String × String)) : List String :=
  HEADER_ORDER.map (fun k => lookup_default k row)

/-- The CSV sink's column layout (lines 222-227):
`pd.DataFrame([row_dict])` lays columns out in the record's own key
order, i.e. the dict insertion order. -/
def csv_columns (row : List (String × String)) : List String :=
  row.map Prod.fst

/-- The result record of lines 688-705, as an insertion-ordered list of
(key, value) pairs, in the exact order the source builds the dict. -/
def result_row (timestamp company email category_scores_str total_score
    type_label ai_comment utm_source utm_campaign pdf_url app_version
    status_str ai_comment_len risk_level entry_check report_date :
    String) : List (String × String) :=
  [ ("timestamp", timestamp), ("company", company), ("email", email),
    ("category_scores", category_scores_str),
    ("total_score", total_score), ("type_label", type_label),
    ("ai_comment", ai_comment), ("utm_source", utm_source),
    ("utm_campaign", utm_campaign), ("pdf_url", pdf_url),
    ("app_version", app_version), ("status", status_str),
    ("ai_comment_len", ai_comment_len), ("risk_level", risk_level),
    ("entry_check", entry_check), ("report_date", report_date) ]

/-! ## Comment truncation (lines 420-424)

Python strings are modelled as their character lists (`String.data`);
`len`, slicing and `split()` all operate on characters, as in Python.
-/

/-- The characters Python `str.split()` and `str.strip()` treat as
whitespace (`Py_UNICODE_ISSPACE`): the ASCII controls 0x09-0x0D, the
separators 0x1C-0x1F, the space, NEL (U+0085), no-break space (U+00A0),
Ogham space mark (U+1680), the typographic spaces U+2000-200A, the line
and paragraph separators U+2028 and U+2029, the narrow no-break space
U+202F, the medium mathematical space U+205F, and the ideographic
(full-width) space U+3000. -/
def py_isspace (c : Char) : Bool :=
  decide (9 ≤ c.toNat) && decide (c.toNat ≤ 13)
    || decide (c.toNat = 32)
    || decide (28 ≤ c.toNat) && decide (c.toNat ≤ 31)
    || decide (c.toNat = 0x85)
    || decide (c.toNat = 0xa0)
    || decide (c.toNat = 0x1680)
    || decide (0x2000 ≤ c.toNat) && decide (c.toNat ≤ 0x200a)
    || decide (c.toNat = 0x2028)
    || decide (c.toNat = 0x2029)
    || decide (c.toNat = 0x202f)
    || decide (c.toNat = 0x205f)
    || decide (c.toNat = 0x3000)

/-- Accumulator form of Python `text.split()`: maximal runs of
non-whitespace characters, discarding all whitespace. -/
def py_split_aux : List Char → List Char → List (List Char)
  | [], acc => if acc = [] then [] else [acc]
  | c :: cs, acc =>
    if py_isspace c then
      (if acc = [] then py_split_aux cs [] else acc :: py_split_aux cs [])
    else py_split_aux cs (acc ++ [c])

/-- Python `text.split()`. -/
def py_split (l : List Char) : List (List Char) := py_split_aux l []

/-- Python `" ".join(ws)`. -/
def py_join : List (List Char) → List Char
  | [] => []
  | [w] => w
  | w :: w2 :: ws => w ++ ' ' :: py_join (w2 :: ws)

/-- Python `" ".join(text.strip().split())` (line 423): the leading `strip()` is
absorbed by `split()`, which already discards leading and trailing
whitespace. -/
def normalize_ws (l : List Char) : List Char := py_join (py_split l)

/-- Source `clamp_comment` on character lists (lines 420-424). -/
def clampL (max_chars : ℕ) (l : List Char) : List Char :=
  if l = [] then []
  else if (normalize_ws l).length ≤ max_chars then normalize_ws l
  else (normalize_ws l).take (max_chars - 1) ++ ['…']

/-- Source `clamp_comment(text, 520)`. -/
def clamp_comment (text : String) : String := String.mk (clampL 520 text.data)

/-- No leading whitespace character. -/
def no_lead_ws : List Char → Bool
  | [] => true
  | c :: _ => !py_isspace c

/-- No trailing whitespace character. -/
def no_trail_ws : List Char → Bool
  | [] => true
  | [c] => !py_isspace c
  | _ :: c :: rest => no_trail_ws (c :: rest)

/-- No two adjacent whitespace characters. -/
def no_double_ws : List Char → Bool
  | [] => true
  | [_] => true
  | a :: b :: rest => (!(py_isspace a && py_isspace b)) && no_double_ws (b :: rest)

/-- Every whitespace character is a plain space. -/
def only_space_ws (l : List Char) : Bool :=
  l.all (fun c => !py_isspace c || c == ' ')

/-- Whitespace-normal form: what `" ".join(text.split())` produces. -/
def ws_canonical (l : List Char) : Bool :=
  no_lead_ws l && no_double_ws l && no_trail_ws l && only_space_ws l

/-! ## Stored comment versus PDF comment (lines 347-354, 499, 651, 683-695) -/

/-- Source `TYPE_TEXT` (lines 347-354): the static narrative paragraph for each
dominant type.  The Python dict raises on any other key; `""` is the
unreachable default. -/
def TYPE_TEXT (t : String) : String :=
  if t = "在庫滞留型" then
    "過剰在庫やWIP滞留で資金が眠っている可能性が高い状態です。生産量ではなく“流れ”の設計に軸足を移しましょう。"
  else if t = "熟練依存型" then
    "属人化により技能がブラックボックス化。ベテラン離職に伴う急落リスクが高い状態です。技能棚卸と多能工化の設計が急務です。"
  else if t = "原価ブラックボックス型" then
    "コスト意識・原価の見える化が弱く、利益が目減りする体質です。現場まで“見える原価管理”を展開しましょう。"
  else if t = "変動脆弱型" then
    "受注変動・突発に弱く、納期トラブルや残業増に直結しています。変動を“なくす”のではなく“流す”バッファ設計が肝要です。"
  else if t = "データ断絶型" then
    "進捗・実績が見えず、意思決定が遅れがちです。まずは“見える化”から。現場と経営のデータ接続を整備しましょう。"
  else if t = "バランス良好型" then
    "リスク分散と仕組み成熟が進んでいます。次の一手は“利益を生むデータ活用”と継続的なリードタイム短縮です。"
  else ""

/-- The `ai_comment` session value: `none` when the generator was
unavailable or failed, otherwise the (nonempty) generated paragraph —
line 608 stores the text only when it is truthy. -/
def row_ai_comment (ai_comment : Option String) : String :=
  ai_comment.getD ("")

/-- Line 651: `comment_for_pdf = st.session_state["ai_comment"] or
TYPE_TEXT[main_type]`. -/
def comment_for_pdf (ai_comment : Option String) (mt : String) : String :=
  match ai_comment with
  | some t => t
  | none => TYPE_TEXT mt

/-- Line 499: the PDF body renders `clamp_comment(result["comment"], 520)`
applied to `comment_for_pdf`. -/
def pdf_rendered_comment (ai_comment : Option String) (mt : String) : String :=
  clamp_comment (comment_for_pdf ai_comment mt)

/-! ## Theorems -/

/-- C2: for every overall score `x`, the signal is the blue (low-risk)
badge iff `x ≥ 4.0`, the yellow (medium-risk) badge iff
`2.6 ≤ x < 4.0`, and the red (high-risk) badge iff `x < 2.6`; the
boundary values 4.0 and 2.6 classify into the higher band. -/
theorem c2_signal_bands (x : ℚ) :
    (signal x = ("青信号", "badge-blue") ↔ 4 ≤ x)
    ∧ (signal x = ("黄信号", "badge-yellow") ↔ 2.6 ≤ x ∧ x < 4)
    ∧ (signal x = ("赤信号", "badge-red") ↔ x < 2.6) := by
  have h26 : (2.6 : ℚ) < 4 := by norm_num
  unfold signal
  split_ifs with h1 h2
  · refine ⟨⟨fun _ => h1, fun _ => rfl⟩, ?_, ?_⟩
    · exact ⟨fun h => absurd h (by decide), fun h => absurd h1 (not_le.mpr h.2)⟩
    · exact ⟨fun h => absurd h (by decide), fun h => absurd h1 (not_le.mpr (h.trans h26))⟩
  · refine ⟨?_, ⟨fun _ => ⟨h2, not_le.mp h1⟩, fun _ => rfl⟩, ?_⟩
    · exact ⟨fun h => absurd h (by decide), fun h => absurd h h1⟩
    · exact ⟨fun h => absurd h (by decide), fun h => absurd h2 (not_le.mpr h)⟩
  · refine ⟨?_, ?_, ⟨fun _ => not_le.mp h2, fun _ => rfl⟩⟩
    · exact ⟨fun h => absurd h (by decide), fun h => absurd h h1⟩
    · exact ⟨fun h => absurd h (by decide), fun h => absurd h.1 h2⟩

/-- C3: the 3-point scorer maps Yes to 5, 部分的に to 3, No to 1, any
unrecognized input to 3; the inverted variant is the non-inverted value
passed through the symmetric map 5↦1, 3↦3, 1↦5; the 5-point scorer
returns the leading digit of each displayed label. -/
theorem c3_scorer_maps :
    (to_score_yn3 ("Yes") false = 5 ∧ to_score_yn3 ("部分的に") false = 3
      ∧ to_score_yn3 ("No") false = 1)
    ∧ (∀ s : String, s ≠ "Yes" → s ≠ "部分的に" → s ≠ "No" →
        to_score_yn3 s false = 3 ∧ to_score_yn3 s true = 3)
    ∧ (∀ s : String, to_score_yn3 s true = invMap3 (to_score_yn3 s false))
    ∧ (to_score_5scale ("5（非常にある）") = 5 ∧ to_score_5scale ("4") = 4
      ∧ to_score_5scale ("3") = 3 ∧ to_score_5scale ("2") = 2
      ∧ to_score_5scale ("1（まったくない）") = 1) := by
  refine ⟨by decide, ?_, ?_, by decide⟩
  · intro s h1 h2 h3
    simp [to_score_yn3, invMap3, h1, h2, h3]
  · intro s
    by_cases h1 : s = "Yes"
    · simp [to_score_yn3, invMap3, h1]
    by_cases h2 : s = "部分的に"
    · simp [to_score_yn3, invMap3, h1, h2]
    by_cases h3 : s = "No"
    · simp [to_score_yn3, invMap3, h1, h2, h3]
    · simp [to_score_yn3, invMap3, h1, h2, h3]

/-- C3 witness: the default branch of the 3-point scorer, instantiated
at a label the form never produces. -/
theorem c3_scorer_maps_witness :
    to_score_yn3 ("たぶん") false = 3 ∧ to_score_yn3 ("たぶん") true = 3 :=
  c3_scorer_maps.2.1 ("たぶん") (by decide) (by decide) (by decide)

/-- C9: the stored risk-level label is a pure function of the overall
score with bands at 2.0 and 3.5 (below 2.0 high, from 2.0 up to but
excluding 3.5 medium, from 3.5 up low), and these bands differ from the
signal bands at 2.6 and 4.0: at overall score 3.7 the risk level is
already low while the signal is still the yellow one. -/
theorem c9_risk_level_bands (x : ℚ) :
    (to_risk_level x = "高リスク" ↔ x < 2)
    ∧ (to_risk_level x = "中リスク" ↔ 2 ≤ x ∧ x < 3.5)
    ∧ (to_risk_level x = "低リスク" ↔ 3.5 ≤ x)
    ∧ (∃ y : ℚ, to_risk_level y = "低リスク" ∧ (signal y).1 = "黄信号") := by
  refine ⟨?_, ?_, ?_, ⟨3.7, ?_, ?_⟩⟩
  · unfold to_risk_level
    split_ifs with h1 h2
    · exact ⟨fun _ => h1, fun _ => rfl⟩
    · exact ⟨fun h => absurd h (by decide), fun h => absurd h h1⟩
    · exact ⟨fun h => absurd h (by decide), fun h => absurd h h1⟩
  · unfold to_risk_level
    split_ifs with h1 h2
    · exact ⟨fun h => absurd h (by decide), fun h => absurd h1 (not_lt.mpr h.1)⟩
    · exact ⟨fun _ => ⟨not_lt.mp h1, h2⟩, fun _ => rfl⟩
    · exact ⟨fun h => absurd h (by decide), fun h => absurd h.2 h2⟩
  · unfold to_risk_level
    split_ifs with h1 h2
    · refine ⟨fun h => absurd h (by decide), fun h => absurd h1 ?_⟩
      have : (2 : ℚ) ≤ 3.5 := by norm_num
      exact not_lt.mpr (this.trans h)
    · exact ⟨fun h => absurd h (by decide), fun h => absurd h2 (not_lt.mpr h)⟩
    · exact ⟨fun _ => not_lt.mp h2, fun _ => rfl⟩
  · unfold to_risk_level
    rw [if_neg (by norm_num), if_neg (by norm_num)]
  · unfold signal
    rw [if_neg (by norm_num), if_pos (by norm_num)]

/-- C1: for every profile of five category scores (in the fixed category
order inventory, skills, cost-awareness, planning, data/DX): if all five
are at least 4.0 the dominant type is バランス良好型; otherwise it is the
archetype of the category with the lowest score, with ties won by the
first category in the enumeration order. -/
theorem c1_main_type_classification (s1 s2 s3 s4 s5 : ℚ) :
    ((4 ≤ s1 ∧ 4 ≤ s2 ∧ 4 ≤ s3 ∧ 4 ≤ s4 ∧ 4 ≤ s5) →
      main_type [s1, s2, s3, s4, s5] = "バランス良好型")
    ∧ (¬(4 ≤ s1 ∧ 4 ≤ s2 ∧ 4 ≤ s3 ∧ 4 ≤ s4 ∧ 4 ≤ s5) →
        ((s1 ≤ s2 ∧ s1 ≤ s3 ∧ s1 ≤ s4 ∧ s1 ≤ s5) →
          main_type [s1, s2, s3, s4, s5] = "在庫滞留型")
        ∧ ((s2 < s1 ∧ s2 ≤ s3 ∧ s2 ≤ s4 ∧ s2 ≤ s5) →
          main_type [s1, s2, s3, s4, s5] = "熟練依存型")
        ∧ ((s3 < s1 ∧ s3 < s2 ∧ s3 ≤ s4 ∧ s3 ≤ s5) →
          main_type [s1, s2, s3, s4, s5] = "原価ブラックボックス型")
        ∧ ((s4 < s1 ∧ s4 < s2 ∧ s4 < s3 ∧ s4 ≤ s5) →
          main_type [s1, s2, s3, s4, s5] = "変動脆弱型")
        ∧ ((s5 < s1 ∧ s5 < s2 ∧ s5 < s3 ∧ s5 < s4) →
          main_type [s1, s2, s3, s4, s5] = "データ断絶型")) := by
  constructor
  · rintro ⟨h1, h2, h3, h4, h5⟩
    have hall : ([s1, s2, s3, s4, s5].all (fun s => decide (s ≥ 4))) = true := by
      simp [ge_iff_le, h1, h2, h3, h4, h5]
    simp [main_type, hall]
  · intro hall
    have hfalse : ¬ (([s1, s2, s3, s4, s5].all (fun s => decide (s ≥ 4))) = true) := by
      simpa [ge_iff_le, and_assoc] using hall
    have hmt : main_type [s1, s2, s3, s4, s5]
        = TYPE_MAP (worst_first ("在庫・運搬", s1)
            [("人材・技能承継", s2), ("原価意識・改善文化", s3),
             ("生産計画・変動対応", s4), ("DX・情報共有", s5)]).1 := by
      simp [main_type, hfalse, CATEGORIES]
    refine ⟨?_, ?_, ?_, ?_, ?_⟩ <;> rintro ⟨hA, hB, hC, hD⟩ <;>
      rw [hmt] <;> unfold worst_first <;> simp only [List.foldl] <;>
      split_ifs <;> first | rfl | (exfalso; linarith)

/-- C1 witness: with scores (3, 4, 4, 4, 4) not all at least 4, the
dominant type is the inventory archetype. -/
theorem c1_main_type_classification_witness :
    main_type [3, 4, 4, 4, 4] = "在庫滞留型" :=
  ((c1_main_type_classification 3 4 4 4 4).2 (by decide)).1 (by decide)

/-- Bounds helper: the 3-point scorer always returns 1, 3 or 5, hence a
value between 1 and 5, for any input and either inversion mode. -/
theorem to_score_yn3_bounds (s : String) (i : Bool) :
    1 ≤ to_score_yn3 s i ∧ to_score_yn3 s i ≤ 5 := by
  cases i <;> simp only [to_score_yn3, invMap3] <;> split_ifs <;> omega

/-- Bounds helper: on the five displayed labels the 5-point scorer
returns a value between 1 and 5. -/
theorem to_score_5scale_bounds (s : String) (hs : s ∈ FIVE) :
    1 ≤ to_score_5scale s ∧ to_score_5scale s ≤ 5 := by
  fin_cases hs <;> decide

/-- Bounds helper: the mean of two question scores that each lie in
[1, 5] lies in [1, 5]. -/
theorem half_sum_bounds (x y : ℕ) (hx : 1 ≤ x ∧ x ≤ 5) (hy : 1 ≤ y ∧ y ≤ 5) :
    1 ≤ ((x + y : ℕ) : ℚ) / 2 ∧ ((x + y : ℕ) : ℚ) / 2 ≤ 5 := by
  have hx1 : (1 : ℚ) ≤ (x : ℚ) := by exact_mod_cast hx.1
  have hx5 : (x : ℚ) ≤ 5 := by exact_mod_cast hx.2
  have hy1 : (1 : ℚ) ≤ (y : ℚ) := by exact_mod_cast hy.1
  have hy5 : (y : ℚ) ≤ 5 := by exact_mod_cast hy.2
  push_cast
  constructor <;> linarith

/-- C10: the overall score, computed as the mean of the five category
scores (each the mean of its two question scores), equals the arithmetic
mean of all ten individual question scores; and when every answer is
drawn from its valid label set (the 3-point labels for Q1-Q5 and Q7-Q10,
the 5-point labels for Q6 — for the 3-point scorer the bound needs no
validity at all since unrecognized input scores 3), every category score
and the overall score lie in [1, 5]. -/
theorem c10_overall_avg_mean (a : Answers) :
    overall_avg a = ((question_scores a).sum : ℚ) / 10
    ∧ (a.q6 ∈ FIVE →
        (∀ s ∈ category_scores a, 1 ≤ s ∧ s ≤ 5)
        ∧ 1 ≤ overall_avg a ∧ overall_avg a ≤ 5) := by
  constructor
  · simp only [overall_avg, category_scores, question_scores,
      List.sum_cons, List.sum_nil]
    push_cast
    ring
  · intro h6
    have k1 := half_sum_bounds _ _ (to_score_yn3_bounds a.q1 false)
      (to_score_yn3_bounds a.q2 false)
    have k2 := half_sum_bounds _ _ (to_score_yn3_bounds a.q3 true)
      (to_score_yn3_bounds a.q4 false)
    have k3 := half_sum_bounds _ _ (to_score_yn3_bounds a.q5 false)
      (to_score_5scale_bounds a.q6 h6)
    have k4 := half_sum_bounds _ _ (to_score_yn3_bounds a.q7 false)
      (to_score_yn3_bounds a.q8 false)
    have k5 := half_sum_bounds _ _ (to_score_yn3_bounds a.q9 false)
      (to_score_yn3_bounds a.q10 false)
    refine ⟨?_, ?_, ?_⟩
    · intro s hs
      simp only [category_scores, List.mem_cons, List.not_mem_nil,
        or_false] at hs
      rcases hs with rfl | rfl | rfl | rfl | rfl
      · exact k1
      · exact k2
      · exact k3
      · exact k4
      · exact k5
    · simp only [overall_avg, category_scores, List.sum_cons, List.sum_nil,
        add_zero]
      rw [le_div_iff₀ (by norm_num)]
      linarith [k1.1, k2.1, k3.1, k4.1, k5.1]
    · simp only [overall_avg, category_scores, List.sum_cons, List.sum_nil,
        add_zero]
      rw [div_le_iff₀ (by norm_num)]
      linarith [k1.2, k2.2, k3.2, k4.2, k5.2]

/-- C10 witness: a concrete set of valid answers (all Yes except Q3 No
and Q6 on the middle 5-point label). -/
theorem c10_overall_avg_mean_witness :
    (∀ s ∈ category_scores ⟨"Yes", "Yes", "No", "Yes", "Yes", "3",
        "Yes", "Yes", "Yes", "Yes"⟩, 1 ≤ s ∧ s ≤ 5)
    ∧ 1 ≤ overall_avg ⟨"Yes", "Yes", "No", "Yes", "Yes", "3",
        "Yes", "Yes", "Yes", "Yes"⟩
    ∧ overall_avg ⟨"Yes", "Yes", "No", "Yes", "Yes", "3",
        "Yes", "Yes", "Yes", "Yes"⟩ ≤ 5 :=
  (c10_overall_avg_mean _).2 (by decide)

/-- C4: persistence happens at most once per submission: every new
submission resets the `saved_once` flag to false, the save step with the
flag already set performs no append and leaves the state unchanged, and
repeating the save step never adds a second append. -/
theorem c4_save_at_most_once (s : SessionSaveState) (t : Bool) :
    (submit_reset s).saved_once = false
    ∧ (s.saved_once = true → save_step t s = s)
    ∧ (save_step t (save_step t s)).append_count
        = (save_step t s).append_count := by
  refine ⟨rfl, ?_, ?_⟩
  · intro h
    simp [save_step, h]
  · rcases s with ⟨flag, n⟩
    cases flag <;> cases t <;> simp [save_step]

/-- C4 witness: with the flag already set, the save step is a no-op. -/
theorem c4_save_at_most_once_witness :
    save_step true ⟨true, 1⟩ = ⟨true, 1⟩ :=
  (c4_save_at_most_once ⟨true, 1⟩ true).2.1 rfl

/-- C5: when the configured primary append fails (and the local file is
writable), the save performs exactly one fallback append, records exactly
one WARN event, and does not retry the primary path (exactly one
attempt); when the primary path is not configured at all, the fallback
file receives exactly one append and no diagnostic event of either
severity is emitted. -/
theorem c5_fallback_policy (primary_ok fallback_ok : Bool) :
    (fallback_ok = true →
      (auto_save_row true false fallback_ok).fallback_appends = 1
      ∧ (auto_save_row true false fallback_ok).warn_events = 1
      ∧ (auto_save_row true false fallback_ok).primary_attempts = 1
      ∧ (auto_save_row false primary_ok fallback_ok).fallback_appends = 1
      ∧ (auto_save_row false primary_ok fallback_ok).warn_events = 0
      ∧ (auto_save_row false primary_ok fallback_ok).error_events = 0) := by
  rintro rfl
  cases primary_ok <;> decide

/-- C5 witness: both failure modes at concrete flags. -/
theorem c5_fallback_policy_witness :
    (auto_save_row true false true).fallback_appends = 1
    ∧ (auto_save_row true false true).warn_events = 1
    ∧ (auto_save_row true false true).primary_attempts = 1
    ∧ (auto_save_row false true true).fallback_appends = 1
    ∧ (auto_save_row false true true).warn_events = 0
    ∧ (auto_save_row false true true).error_events = 0 :=
  c5_fallback_policy true true rfl

/-- First-match lookup is invariant under permutation of a record with
duplicate-free keys. -/
theorem lookup_default_perm (k : String) :
    ∀ {row row' : List (String × String)}, row.Perm row' →
      (row.map Prod.fst).Nodup →
      lookup_default k row = lookup_default k row' := by
  intro row row' h
  induction h with
  | nil => intro _; rfl
  | cons x h ih =>
    intro hnd
    simp only [List.map_cons, List.nodup_cons] at hnd
    simp only [lookup_default]
    rw [ih hnd.2]
  | swap x y l =>
    intro hnd
    simp only [List.map_cons, List.nodup_cons, List.mem_cons] at hnd
    by_cases hy : y.1 = k
    · by_cases hx : x.1 = k
      · exact absurd (Or.inl (hy.trans hx.symm)) hnd.1
      · simp [lookup_default, hx, hy]
    · by_cases hx : x.1 = k
      · simp [lookup_default, hx, hy]
      · simp [lookup_default, hx, hy]
  | trans h1 h2 ih1 ih2 =>
    intro hnd
    exact (ih1 hnd).trans (ih2 (((h1.map Prod.fst).nodup_iff).mp hnd))

/-- C6 counterexample: a record with exactly the sixteen contract keys
but the first two inserted in swapped order is laid out by the CSV
fallback sink in that swapped order, not in `HEADER_ORDER` — the
fallback sink does depend on the internal insertion order. -/
theorem c6_counterexample :
    (csv_columns (("company", "") :: ("timestamp", "") ::
        (result_row ("") ("") ("") ("") ("") ("") ("") ("") ("") ("") ("") ("") ("") ("") ("") ("")).drop 2)).Perm
      HEADER_ORDER
    ∧ csv_columns (("company", "") :: ("timestamp", "") ::
        (result_row ("") ("") ("") ("") ("") ("") ("") ("") ("") ("") ("") ("") ("") ("") ("") ("")).drop 2)
      ≠ HEADER_ORDER := by
  constructor
  · exact List.Perm.swap ("timestamp") ("company") _
  · decide

/-- C6 amended: the record built by the app inserts its sixteen fields
exactly in `HEADER_ORDER`, so the CSV fallback sink's layout equals
`HEADER_ORDER` for every actually persisted record; the Sheets sink
re-keys by `HEADER_ORDER` and is therefore insensitive to any reordering
of a duplicate-free record. -/
theorem c6_header_order_amended :
    (∀ v1 v2 v3 v4 v5 v6 v7 v8 v9 v10 v11 v12 v13 v14 v15 v16 : String,
      csv_columns (result_row v1 v2 v3 v4 v5 v6 v7 v8 v9 v10 v11 v12 v13
        v14 v15 v16) = HEADER_ORDER)
    ∧ (∀ row row' : List (String × String), row.Perm row' →
        (row.map Prod.fst).Nodup →
        sheets_record row = sheets_record row') := by
  constructor
  · intro v1 v2 v3 v4 v5 v6 v7 v8 v9 v10 v11 v12 v13 v14 v15 v16
    rfl
  · intro row row' h hnd
    simp only [sheets_record]
    exact List.map_congr_left (fun k _ => lookup_default_perm k h hnd)

/-- C6 amended witness: the Sheets layout of a two-field record agrees
with the layout of its transposition. -/
theorem c6_header_order_amended_witness :
    sheets_record [("company", "ACME"), ("timestamp", "t0")]
      = sheets_record [("timestamp", "t0"), ("company", "ACME")] :=
  c6_header_order_amended.2 _ _
    (List.Perm.swap ("timestamp", "t0") ("company", "ACME") []) (by decide)

theorem no_double_ws_cons2 (a b : Char) (rest : List Char) :
    no_double_ws (a :: b :: rest)
      = ((!(py_isspace a && py_isspace b)) && no_double_ws (b :: rest)) := rfl

theorem no_trail_ws_cons2 (a b : Char) (rest : List Char) :
    no_trail_ws (a :: b :: rest) = no_trail_ws (b :: rest) := rfl

theorem no_double_ws_tail {c : Char} {cs : List Char}
    (h : no_double_ws (c :: cs) = true) : no_double_ws cs = true := by
  cases cs with
  | nil => rfl
  | cons d ds =>
    rw [no_double_ws_cons2, Bool.and_eq_true] at h
    exact h.2

theorem no_double_ws_head {c d : Char} {ds : List Char}
    (h : no_double_ws (c :: d :: ds) = true) :
    (!(py_isspace c && py_isspace d)) = true := by
  rw [no_double_ws_cons2, Bool.and_eq_true] at h
  exact h.1

theorem no_trail_ws_tail {c : Char} {cs : List Char}
    (h : no_trail_ws (c :: cs) = true) : no_trail_ws cs = true := by
  cases cs with
  | nil => rfl
  | cons d ds => exact h

theorem only_space_ws_tail {c : Char} {cs : List Char}
    (h : only_space_ws (c :: cs) = true) : only_space_ws cs = true := by
  unfold only_space_ws at h ⊢
  rw [List.all_cons, Bool.and_eq_true] at h
  exact h.2

theorem only_space_head {c : Char} {cs : List Char}
    (ho : only_space_ws (c :: cs) = true) (hws : py_isspace c = true) :
    c = ' ' := by
  unfold only_space_ws at ho
  rw [List.all_cons, Bool.and_eq_true, Bool.or_eq_true] at ho
  rcases ho.1 with h | h
  · rw [hws] at h; cases h
  · exact eq_of_beq h

theorem py_join_py_split_aux : ∀ (l acc : List Char),
    acc.all (fun c => !py_isspace c) = true →
    no_double_ws l = true → no_trail_ws l = true → only_space_ws l = true →
    (no_lead_ws l = true ∨ acc ≠ []) →
    py_join (py_split_aux l acc) = acc ++ l := by
  intro l
  induction l with
  | nil =>
    intro acc _ _ _ _ _
    by_cases h : acc = []
    · simp [py_split_aux, h, py_join]
    · simp [py_split_aux, h, py_join]
  | cons c cs ih =>
    intro acc hacc hd ht ho hl
    by_cases hws : py_isspace c = true
    · have hc : c = ' ' := only_space_head ho hws
      have hacc_ne : acc ≠ [] := by
        rcases hl with hlead | hne
        · exfalso; simp [no_lead_ws, hws] at hlead
        · exact hne
      have hcs_ne : cs ≠ [] := by
        intro hnil
        subst hnil
        simp [no_trail_ws, hws] at ht
      obtain ⟨d, ds, rfl⟩ : ∃ d ds, cs = d :: ds := by
        cases cs with
        | nil => exact absurd rfl hcs_ne
        | cons d ds => exact ⟨d, ds, rfl⟩
      have hd_not : py_isspace d = false := by
        have := no_double_ws_head hd
        rw [Bool.not_eq_true', Bool.and_eq_false_iff] at this
        rcases this with h | h
        · rw [hws] at h; cases h
        · exact h
      rw [show py_split_aux (c :: d :: ds) acc = acc :: py_split_aux (d :: ds) []
        from by simp [py_split_aux, hws, hacc_ne]]
      have hrec : py_join (py_split_aux (d :: ds) []) = d :: ds := by
        simpa using ih [] rfl (no_double_ws_tail hd) (no_trail_ws_tail ht)
          (only_space_ws_tail ho) (Or.inl (by simp [no_lead_ws, hd_not]))
      cases hsplit : py_split_aux (d :: ds) [] with
      | nil => rw [hsplit] at hrec; simp [py_join] at hrec
      | cons w ws2 =>
        rw [hsplit] at hrec
        have hjw : py_join (acc :: w :: ws2) = acc ++ ' ' :: py_join (w :: ws2) := rfl
        rw [hjw, hrec, hc]
    · have hws' : py_isspace c = false := by simpa using hws
      rw [show py_split_aux (c :: cs) acc = py_split_aux cs (acc ++ [c])
        from by simp [py_split_aux, hws']]
      have hrec := ih (acc ++ [c])
        (by simp [List.all_append, hacc, hws'])
        (no_double_ws_tail hd) (no_trail_ws_tail ht) (only_space_ws_tail ho)
        (Or.inr (by simp))
      rw [hrec, List.append_assoc]
      rfl

theorem py_split_aux_chunks : ∀ (l acc : List Char),
    acc.all (fun c => !py_isspace c) = true →
    ∀ w ∈ py_split_aux l acc, w ≠ [] ∧ w.all (fun c => !py_isspace c) = true := by
  intro l
  induction l with
  | nil =>
    intro acc hacc w hw
    by_cases h : acc = []
    · simp [py_split_aux, h] at hw
    · rw [show py_split_aux [] acc = [acc] from by simp [py_split_aux, h]] at hw
      rw [List.mem_singleton] at hw
      subst hw
      exact ⟨h, hacc⟩
  | cons c cs ih =>
    intro acc hacc w hw
    by_cases hws : py_isspace c = true
    · by_cases h : acc = []
      · rw [show py_split_aux (c :: cs) acc = py_split_aux cs []
          from by simp [py_split_aux, hws, h]] at hw
        exact ih [] rfl w hw
      · rw [show py_split_aux (c :: cs) acc = acc :: py_split_aux cs []
          from by simp [py_split_aux, hws, h]] at hw
        rcases List.mem_cons.mp hw with rfl | hw
        · exact ⟨h, hacc⟩
        · exact ih [] rfl w hw
    · have hws' : py_isspace c = false := by simpa using hws
      rw [show py_split_aux (c :: cs) acc = py_split_aux cs (acc ++ [c])
        from by simp [py_split_aux, hws']] at hw
      exact ih (acc ++ [c]) (by simp [List.all_append, hacc, hws']) w hw

theorem no_lead_ws_of_wsfree {w : List Char}
    (h : w.all (fun c => !py_isspace c) = true) : no_lead_ws w = true := by
  cases w with
  | nil => rfl
  | cons a w2 =>
    rw [List.all_cons, Bool.and_eq_true] at h
    exact h.1

theorem no_double_ws_of_wsfree : ∀ {w : List Char},
    w.all (fun c => !py_isspace c) = true → no_double_ws w = true := by
  intro w
  induction w with
  | nil => intro _; rfl
  | cons a w2 ih =>
    intro h
    rw [List.all_cons, Bool.and_eq_true] at h
    cases w2 with
    | nil => rfl
    | cons b rest =>
      rw [no_double_ws_cons2, Bool.and_eq_true]
      refine ⟨?_, ih h.2⟩
      rw [Bool.not_eq_true'] at h ⊢
      rw [h.1]
      rfl

theorem no_trail_ws_of_wsfree : ∀ {w : List Char},
    w.all (fun c => !py_isspace c) = true → no_trail_ws w = true := by
  intro w
  induction w with
  | nil => intro _; rfl
  | cons a w2 ih =>
    intro h
    rw [List.all_cons, Bool.and_eq_true] at h
    cases w2 with
    | nil => exact h.1
    | cons b rest =>
      rw [no_trail_ws_cons2]
      exact ih h.2

theorem only_space_ws_of_wsfree : ∀ {w : List Char},
    w.all (fun c => !py_isspace c) = true → only_space_ws w = true := by
  intro w
  induction w with
  | nil => intro _; rfl
  | cons a w2 ih =>
    intro h
    rw [List.all_cons, Bool.and_eq_true] at h
    unfold only_space_ws
    rw [List.all_cons, Bool.and_eq_true]
    refine ⟨?_, ih h.2⟩
    rw [Bool.or_eq_true]
    exact Or.inl h.1

theorem no_lead_ws_append {w : List Char} (r : List Char) (h : w ≠ []) :
    no_lead_ws (w ++ r) = no_lead_ws w := by
  cases w with
  | nil => exact absurd rfl h
  | cons a w2 => rfl

theorem no_trail_ws_append : ∀ (w r : List Char), r ≠ [] →
    no_trail_ws (w ++ r) = no_trail_ws r := by
  intro w
  induction w with
  | nil => intro r _; rfl
  | cons a w2 ih =>
    intro r hr
    have hne : w2 ++ r ≠ [] := by simp [hr]
    cases hwr : w2 ++ r with
    | nil => exact absurd hwr hne
    | cons b rest =>
      calc no_trail_ws ((a :: w2) ++ r)
          = no_trail_ws (a :: b :: rest) := by rw [List.cons_append, hwr]
        _ = no_trail_ws (b :: rest) := no_trail_ws_cons2 a b rest
        _ = no_trail_ws (w2 ++ r) := by rw [hwr]
        _ = no_trail_ws r := ih r hr

theorem no_double_ws_append_wsfree : ∀ (w r : List Char),
    w.all (fun c => !py_isspace c) = true → no_double_ws r = true →
    no_double_ws (w ++ r) = true := by
  intro w
  induction w with
  | nil => intro r _ hr; exact hr
  | cons a w2 ih =>
    intro r hall hr
    rw [List.all_cons, Bool.and_eq_true] at hall
    have hrec : no_double_ws (w2 ++ r) = true := ih r hall.2 hr
    rw [List.cons_append]
    cases hwr : w2 ++ r with
    | nil => rfl
    | cons b rest =>
      rw [hwr] at hrec
      rw [no_double_ws_cons2, Bool.and_eq_true]
      refine ⟨?_, hrec⟩
      rw [Bool.not_eq_true'] at hall ⊢
      rw [hall.1]
      rfl

theorem no_double_ws_append_single : ∀ (w : List Char) (ch : Char),
    no_double_ws w = true → py_isspace ch = false →
    no_double_ws (w ++ [ch]) = true := by
  intro w ch
  induction w with
  | nil => intro _ _; rfl
  | cons a w2 ih =>
    intro h hch
    have hrec := ih (no_double_ws_tail h) hch
    rw [List.cons_append]
    cases hwr : w2 ++ [ch] with
    | nil => simp at hwr
    | cons b rest =>
      rw [hwr] at hrec
      rw [no_double_ws_cons2, Bool.and_eq_true]
      refine ⟨?_, hrec⟩
      cases w2 with
      | nil =>
        simp only [List.nil_append, List.cons.injEq] at hwr
        rw [Bool.not_eq_true', ← hwr.1] at *
        rw [hch]
        exact Bool.and_false _
      | cons b2 rest2 =>
        rw [List.cons_append, List.cons.injEq] at hwr
        rw [← hwr.1]
        exact no_double_ws_head h

theorem no_double_ws_take : ∀ (l : List Char) (n : ℕ),
    no_double_ws l = true → no_double_ws (l.take n) = true := by
  intro l
  induction l with
  | nil => intro n _; rw [List.take_nil]; rfl
  | cons a l2 ih =>
    intro n h
    cases n with
    | zero => rfl
    | succ m =>
      rw [List.take_succ_cons]
      cases l2 with
      | nil => rw [List.take_nil]; rfl
      | cons b rest =>
        cases m with
        | zero => rfl
        | succ m2 =>
          rw [List.take_succ_cons]
          have htail := ih (m2 + 1) (no_double_ws_tail h)
          rw [List.take_succ_cons] at htail
          rw [no_double_ws_cons2, Bool.and_eq_true]
          exact ⟨no_double_ws_head h, htail⟩

theorem only_space_ws_take (l : List Char) (n : ℕ)
    (h : only_space_ws l = true) : only_space_ws (l.take n) = true := by
  unfold only_space_ws at h ⊢
  rw [List.all_eq_true] at h ⊢
  exact fun c hc => h c ((List.take_sublist n l).subset hc)

theorem py_join_ne_nil {w : List Char} {ws : List (List Char)} (hw : w ≠ []) :
    py_join (w :: ws) ≠ [] := by
  cases ws with
  | nil => exact hw
  | cons w2 ws2 =>
    rw [show py_join (w :: w2 :: ws2) = w ++ ' ' :: py_join (w2 :: ws2) from rfl]
    simp

theorem no_lead_ws_py_join {w : List Char} {ws : List (List Char)}
    (hw : w ≠ []) (hfree : w.all (fun c => !py_isspace c) = true) :
    no_lead_ws (py_join (w :: ws)) = true := by
  cases ws with
  | nil => exact no_lead_ws_of_wsfree hfree
  | cons w2 ws2 =>
    rw [show py_join (w :: w2 :: ws2) = w ++ ' ' :: py_join (w2 :: ws2) from rfl,
      no_lead_ws_append _ hw]
    exact no_lead_ws_of_wsfree hfree

theorem ws_canonical_parts {l : List Char} (h : ws_canonical l = true) :
    no_lead_ws l = true ∧ no_double_ws l = true ∧ no_trail_ws l = true
      ∧ only_space_ws l = true := by
  unfold ws_canonical at h
  rw [Bool.and_eq_true, Bool.and_eq_true, Bool.and_eq_true] at h
  exact ⟨h.1.1.1, h.1.1.2, h.1.2, h.2⟩

theorem ws_canonical_build {l : List Char} (h1 : no_lead_ws l = true)
    (h2 : no_double_ws l = true) (h3 : no_trail_ws l = true)
    (h4 : only_space_ws l = true) : ws_canonical l = true := by
  unfold ws_canonical
  rw [h1, h2, h3, h4]
  rfl

theorem no_double_ws_cons_space {m : List Char} (hD : no_double_ws m = true)
    (hL : no_lead_ws m = true) : no_double_ws (' ' :: m) = true := by
  cases m with
  | nil => rfl
  | cons b rest =>
    rw [no_double_ws_cons2, Bool.and_eq_true]
    refine ⟨?_, hD⟩
    simp only [no_lead_ws, Bool.not_eq_true'] at hL
    rw [Bool.not_eq_true', hL]
    exact Bool.and_false _

theorem ws_canonical_py_join : ∀ (ws : List (List Char)),
    (∀ w ∈ ws, w ≠ [] ∧ w.all (fun c => !py_isspace c) = true) →
    ws_canonical (py_join ws) = true := by
  intro ws
  induction ws with
  | nil => intro _; rfl
  | cons w ws2 ih =>
    intro h
    have hw := h w (List.mem_cons_self w ws2)
    cases ws2 with
    | nil =>
      exact ws_canonical_build (no_lead_ws_of_wsfree hw.2)
        (no_double_ws_of_wsfree hw.2) (no_trail_ws_of_wsfree hw.2)
        (only_space_ws_of_wsfree hw.2)
    | cons w2 ws3 =>
      have hw2 := h w2 (by simp)
      have hrec := ih (fun u hu => h u (List.mem_cons_of_mem w hu))
      obtain ⟨hLm, hDm, hTm, hOm⟩ := ws_canonical_parts hrec
      have hm_ne : py_join (w2 :: ws3) ≠ [] := py_join_ne_nil hw2.1
      rw [show py_join (w :: w2 :: ws3) = w ++ ' ' :: py_join (w2 :: ws3) from rfl]
      refine ws_canonical_build ?_ ?_ ?_ ?_
      · rw [no_lead_ws_append _ hw.1]
        exact no_lead_ws_of_wsfree hw.2
      · exact no_double_ws_append_wsfree _ _ hw.2
          (no_double_ws_cons_space hDm (no_lead_ws_py_join hw2.1 hw2.2))
      · rw [no_trail_ws_append _ _ (by simp)]
        cases hm : py_join (w2 :: ws3) with
        | nil => exact absurd hm hm_ne
        | cons b rest =>
          rw [no_trail_ws_cons2, ← hm]
          exact hTm
      · unfold only_space_ws
        rw [List.all_append, Bool.and_eq_true, List.all_cons, Bool.and_eq_true]
        exact ⟨only_space_ws_of_wsfree hw.2, by rfl, hOm⟩

theorem ws_canonical_normalize (l : List Char) :
    ws_canonical (normalize_ws l) = true :=
  ws_canonical_py_join _ (py_split_aux_chunks l [] rfl)

theorem normalize_ws_of_canonical {l : List Char}
    (h : ws_canonical l = true) : normalize_ws l = l := by
  obtain ⟨hL, hD, hT, hO⟩ := ws_canonical_parts h
  simpa using py_join_py_split_aux l [] rfl hD hT hO (Or.inl hL)

theorem ws_canonical_truncate {t : List Char} (h : ws_canonical t = true)
    (hlen : 520 < t.length) :
    ws_canonical (t.take 519 ++ ['…']) = true := by
  obtain ⟨hL, hD, hT, hO⟩ := ws_canonical_parts h
  have htake_len : (t.take 519).length = 519 := by
    rw [List.length_take]
    omega
  have htake_ne : t.take 519 ≠ [] := by
    intro e
    rw [e] at htake_len
    simp at htake_len
  refine ws_canonical_build ?_ ?_ ?_ ?_
  · rw [no_lead_ws_append _ htake_ne]
    cases t with
    | nil => simp at hlen
    | cons c rest =>
      rw [show (519 : ℕ) = 518 + 1 from rfl, List.take_succ_cons]
      exact hL
  · exact no_double_ws_append_single _ '…' (no_double_ws_take t 519 hD)
      (by decide)
  · rw [no_trail_ws_append _ _ (by simp)]
    rfl
  · unfold only_space_ws
    rw [List.all_append, Bool.and_eq_true]
    exact ⟨only_space_ws_take t 519 hO, by decide⟩

theorem clampL_fix {l : List Char} (hc : ws_canonical l = true)
    (hlen : l.length ≤ 520) : clampL 520 l = l := by
  by_cases h : l = []
  · simp [clampL, h]
  · unfold clampL
    rw [if_neg h, normalize_ws_of_canonical hc, if_pos hlen]

theorem clampL_truncate {l : List Char} (hc : ws_canonical l = true)
    (hlen : 520 < l.length) : clampL 520 l = l.take 519 ++ ['…'] := by
  have h : l ≠ [] := by
    intro e
    rw [e] at hlen
    simp at hlen
  unfold clampL
  rw [if_neg h, normalize_ws_of_canonical hc, if_neg (by omega)]

theorem clampL_idem (l : List Char) :
    clampL 520 (clampL 520 l) = clampL 520 l := by
  by_cases h : l = []
  · subst h; rfl
  · have hct : ws_canonical (normalize_ws l) = true := ws_canonical_normalize l
    by_cases hlen : (normalize_ws l).length ≤ 520
    · have h1 : clampL 520 l = normalize_ws l := by
        unfold clampL
        rw [if_neg h, if_pos hlen]
      rw [h1, clampL_fix hct hlen]
    · have h1 : clampL 520 l = (normalize_ws l).take (520 - 1) ++ ['…'] := by
        unfold clampL
        rw [if_neg h, if_neg hlen]
      have hlen' : 520 < (normalize_ws l).length := by omega
      have hc2 := ws_canonical_truncate hct hlen'
      have hlen2 : ((normalize_ws l).take 519 ++ ['…']).length ≤ 520 := by
        simp [List.length_take]
      rw [h1, show (520 : ℕ) - 1 = 519 from rfl, clampL_fix hc2 hlen2]

/-- C7 counterexample: the comments `" a"` and `"あ　い"` (with the
ideographic space U+3000) are at most 520 characters long yet are
changed by `clamp_comment`, because the function also strips and
collapses whitespace — in the full Python sense, U+3000 included —
before applying the length cap; a comment at or under the limit is not
always left unchanged. -/
theorem c7_counterexample :
    (" a" : String).length ≤ 520 ∧ clamp_comment (" a") ≠ " a"
    ∧ ("あ　い" : String).length ≤ 520 ∧ clamp_comment ("あ　い") ≠ "あ　い"
    ∧ clamp_comment ("あ　い") = "あ い" :=
  ⟨by decide, by decide, by decide, by decide, by decide⟩

/-- C7 amended: `clamp_comment` first whitespace-normalizes its input
(strip plus collapsing of internal whitespace runs to single plain
spaces, with whitespace in the full Python sense of `py_isspace`); a
whitespace-normal comment of at most 520 characters is unchanged, a
whitespace-normal comment over the limit is cut to 519 characters plus
the ellipsis character, and the function is idempotent on every input. -/
theorem c7_clamp_amended :
    (∀ s : String, ws_canonical s.data = true → s.length ≤ 520 →
        clamp_comment s = s)
    ∧ (∀ s : String, ws_canonical s.data = true → 520 < s.length →
        clamp_comment s = String.mk (s.data.take 519 ++ ['…']))
    ∧ (∀ s : String, clamp_comment (clamp_comment s) = clamp_comment s) := by
  refine ⟨?_, ?_, ?_⟩
  · intro s hc hlen
    obtain ⟨l⟩ := s
    exact congrArg String.mk (clampL_fix hc hlen)
  · intro s hc hlen
    obtain ⟨l⟩ := s
    exact congrArg String.mk (clampL_truncate hc hlen)
  · intro s
    obtain ⟨l⟩ := s
    exact congrArg String.mk (clampL_idem l)

/-- C7 amended witness: a short whitespace-normal comment is unchanged. -/
theorem c7_clamp_amended_witness : clamp_comment ("ok") = "ok" :=
  c7_clamp_amended.1 ("ok") (by decide) (by decide)

/-- C8 counterexample: when the external generator failed, the claim
requires the stored comment to be the static fallback paragraph keyed by
the dominant type, but the record stores the comment field computed on
line 683, which is the empty string — the fallback paragraph reaches
only the PDF. -/
theorem c8_counterexample :
    row_ai_comment none ≠ TYPE_TEXT ("在庫滞留型") :=
  by decide

/-- C8 amended: the comment stored in the persisted record is the raw
generated paragraph exactly when generation succeeded (with no length
cap applied) and the empty string otherwise; the capped-with-ellipsis
generated text, or the static fallback paragraph keyed by the dominant
type, is what the PDF renders, not what the record stores. -/
theorem c8_row_comment_amended (ai : Option String) (mt : String) :
    ((∃ t, ai = some t ∧ row_ai_comment ai = t)
      ∨ (ai = none ∧ row_ai_comment ai = ""))
    ∧ (ai = none → pdf_rendered_comment ai mt = clamp_comment (TYPE_TEXT mt))
    ∧ (∀ t, ai = some t → pdf_rendered_comment ai mt = clamp_comment t) := by
  refine ⟨?_, ?_, ?_⟩
  · cases ai with
    | none => exact Or.inr ⟨rfl, rfl⟩
    | some t => exact Or.inl ⟨t, rfl, rfl⟩
  · rintro rfl
    rfl
  · rintro t rfl
    rfl

/-- C8 amended witness: with no generated comment, the PDF renders the
clamped static fallback for the inventory archetype. -/
theorem c8_row_comment_amended_witness :
    pdf_rendered_comment none ("在庫滞留型")
      = clamp_comment (TYPE_TEXT ("在庫滞留型")) :=
  (c8_row_comment_amended none ("在庫滞留型")).2.1 rfl
